import Mathlib

/-
Verification of the Northern Lights ownership-graph backend against its
specification.  The graph store, the `add_ownership` merge (quoted Cypher in
EDGE_GENERATION.md), the repair script `fix_dual_labeled_funds.cypher` and the
frontend mappings (DataTable fetch mapping, ChatPanel submit guard) are embedded
from the source; the parts of the backend whose Python source is not in the
repository snapshot (request validation, entity resolver, ingestion
orchestrator, clustering pipeline, network query assembly) are modelled from
the specification, as marked in their doc comments.
-/

set_option autoImplicit false

namespace NorthernLights

/-- Node labels of the graph store: an entity node is labelled Company or Fund. -/
inductive Label where
  | company
  | fund
  deriving DecidableEq, Repr

/-- An entity node of the graph store (spec §3): keyed by `company_id`
(the Swedish organisation number or a generated surrogate), carrying the
label set, the placeholder flag, and the clustering fields. -/
structure Node where
  company_id : String
  name : String
  labels : List Label
  placeholder : Bool
  cluster_id : Option Int
  embedding : Option (List Rat)
  deriving DecidableEq, Repr

/-- An OWNS relationship of the graph store, with the properties set by
`add_ownership`: `share_percentage`, `amount`, `updated_at`. -/
structure Edge where
  source : String
  target : String
  share_percentage : Option Rat
  amount : Option Rat
  updated_at : Nat
  deriving DecidableEq, Repr

/-- The graph store: node list and OWNS-edge list. -/
structure Store where
  nodes : List Node
  edges : List Edge
  deriving DecidableEq, Repr

/-- The relationship properties passed to `add_ownership`
(`ownership_pct` is mapped to `share_percentage` by the router). -/
structure OwnProps where
  share_percentage : Option Rat
  amount : Option Rat
  deriving DecidableEq, Repr

/-- The Cypher guard `WHERE 'Fund' IN labels(owner) OR 'Company' IN labels(owner)`
of `add_ownership`. -/
def ownerLabelOk (n : Node) : Bool :=
  n.labels.contains Label.fund || n.labels.contains Label.company

/-- `MATCH (owner {company_id: $owner_id}) WHERE 'Fund' IN labels(owner) OR
'Company' IN labels(owner)` of `add_ownership`. -/
def findOwner (s : Store) (owner_id : String) : Option Node :=
  s.nodes.find? (fun n => n.company_id == owner_id && ownerLabelOk n)

/-- `MATCH (target:Company {company_id: $company_id})` of `add_ownership`. -/
def findTarget (s : Store) (company_id : String) : Option Node :=
  s.nodes.find? (fun n => n.company_id == company_id && n.labels.contains Label.company)

/-- Whether an OWNS edge from `a` to `b` is already present (the match
performed by Cypher `MERGE (owner)-[r:OWNS]->(target)`). -/
def hasOwns (s : Store) (a b : String) : Bool :=
  s.edges.any (fun e => e.source == a && e.target == b)

/-- Cypher `SET r += $properties, r.updated_at = datetime()`: keys present in
the property map overwrite the edge's values, absent keys are untouched, and
the timestamp is refreshed. -/
def applyProps (e : Edge) (p : OwnProps) (now : Nat) : Edge :=
  { e with
    share_percentage :=
      match p.share_percentage with
      | some v => some v
      | none => e.share_percentage,
    amount :=
      match p.amount with
      | some v => some v
      | none => e.amount,
    updated_at := now }

/-- `add_ownership(owner_id, company_id, properties)` from
`app/db/queries/relationship_queries.py`, as quoted in EDGE_GENERATION.md:

```
MATCH (owner {company_id: $owner_id})
WHERE 'Fund' IN labels(owner) OR 'Company' IN labels(owner)
MATCH (target:Company {company_id: $company_id})
MERGE (owner)-[r:OWNS]->(target)
SET r += $properties, r.updated_at = datetime()
```

If either MATCH fails the query touches nothing; MERGE updates the existing
edge for the ordered pair, or creates it when absent. -/
def add_ownership (s : Store) (owner_id company_id : String) (p : OwnProps) (now : Nat) : Store :=
  match findOwner s owner_id, findTarget s company_id with
  | some _, some _ =>
    if hasOwns s owner_id company_id then
      { s with edges := s.edges.map (fun e =>
          if e.source == owner_id && e.target == company_id then applyProps e p now else e) }
    else
      let e : Edge :=
        { source := owner_id
          target := company_id
          share_percentage := p.share_percentage
          amount := p.amount
          updated_at := now }
      { s with edges := s.edges ++ [e] }
  | _, _ => s

/-- Validation errors of the relationship endpoint (spec §7 taxonomy). -/
inductive ValidationError where
  | selfLoop
  | percentageOutOfRange
  deriving DecidableEq, Repr

/-- Is an optional ownership percentage inside [0, 100]? -/
def validOwnership (pct : Option Rat) : Bool :=
  match pct with
  | none => true
  | some v => decide (0 ≤ v) && decide (v ≤ 100)

/-- Modelled from the spec: the request validation of `POST /v1/relationships`
(the FastAPI router and `RelationshipCreate` model, whose Python source is not
in the repository snapshot).  Per spec §4.2/§7 it rejects self-loops and
percentages outside [0, 100] with a `ValidationError` and otherwise delegates
to the source-embedded `add_ownership`.  Returns the (possibly unchanged)
store together with the validation outcome. -/
def merge_relationship (s : Store) (source_id target_id : String)
    (pct amount : Option Rat) (now : Nat) : Store × Option ValidationError :=
  if source_id == target_id then (s, some ValidationError.selfLoop)
  else if validOwnership pct then
    (add_ownership s source_id target_id { share_percentage := pct, amount := amount } now, none)
  else (s, some ValidationError.percentageOutOfRange)

/-- The OWNS edges from `a` to `b` present in the store. -/
def ownsBetween (s : Store) (a b : String) : List Edge :=
  s.edges.filter (fun e => e.source == a && e.target == b)

/-- Iterate the `add_ownership` merge `n` times with the same properties
(timestamps vary per call, as `datetime()` does). -/
def mergeN (s : Store) (a b : String) (p : OwnProps) : Nat → Store
  | 0 => s
  | n + 1 => add_ownership (mergeN s a b p n) a b p n

theorem add_ownership_nodes (s : Store) (a b : String) (p : OwnProps) (t : Nat) :
    (add_ownership s a b p t).nodes = s.nodes := by
  unfold add_ownership
  split
  · split <;> rfl
  · rfl

theorem mergeN_nodes (s : Store) (a b : String) (p : OwnProps) (n : Nat) :
    (mergeN s a b p n).nodes = s.nodes := by
  induction n with
  | zero => rfl
  | succ k ih => rw [mergeN, add_ownership_nodes, ih]

theorem findOwner_congr (s₁ s₂ : Store) (a : String) (h : s₁.nodes = s₂.nodes) :
    findOwner s₁ a = findOwner s₂ a := by
  unfold findOwner; rw [h]

theorem findTarget_congr (s₁ s₂ : Store) (a : String) (h : s₁.nodes = s₂.nodes) :
    findTarget s₁ a = findTarget s₂ a := by
  unfold findTarget; rw [h]

theorem filter_map_pres {α : Type} (g : α → α) (q : α → Bool) (hg : ∀ x, q (g x) = q x)
    (l : List α) : (l.map g).filter q = (l.filter q).map g := by
  induction l with
  | nil => rfl
  | cons x l ih =>
    simp only [List.map_cons, List.filter_cons, hg]
    cases q x <;> simp [ih]

theorem any_eq_false_of_filter_nil {α : Type} (p : α → Bool) (l : List α)
    (h : l.filter p = []) : l.any p = false := by
  induction l with
  | nil => rfl
  | cons x l ih =>
    simp only [List.filter_cons] at h
    cases hx : p x
    · rw [hx] at h
      simp only [List.any_cons, hx, Bool.false_or]
      exact ih h
    · rw [hx] at h
      exact absurd h (List.cons_ne_nil _ _)

theorem any_eq_true_of_filter_cons {α : Type} (p : α → Bool) (l : List α) (e : α)
    (rest : List α) (h : l.filter p = e :: rest) : l.any p = true := by
  have he : e ∈ l.filter p := by rw [h]; exact List.mem_cons_self e rest
  have := List.mem_filter.mp he
  exact List.any_eq_true.mpr ⟨e, this.1, this.2⟩

theorem pred_of_filter_singleton {α : Type} (p : α → Bool) (l : List α) (e : α)
    (h : l.filter p = [e]) : p e = true := by
  have he : e ∈ l.filter p := by rw [h]; exact List.mem_cons_self e []
  exact (List.mem_filter.mp he).2

theorem applyProps_source (e : Edge) (p : OwnProps) (t : Nat) :
    (applyProps e p t).source = e.source := rfl

theorem applyProps_target (e : Edge) (p : OwnProps) (t : Nat) :
    (applyProps e p t).target = e.target := rfl

/-- Merging when no edge for the ordered pair exists appends exactly that edge. -/
theorem ownsBetween_add_create (s : Store) (a b : String) (p : OwnProps) (t : Nat)
    (hA : (findOwner s a).isSome) (hB : (findTarget s b).isSome)
    (h0 : ownsBetween s a b = []) :
    ownsBetween (add_ownership s a b p t) a b =
      [{ source := a
         target := b
         share_percentage := p.share_percentage
         amount := p.amount
         updated_at := t }] := by
  obtain ⟨nA, hA⟩ := Option.isSome_iff_exists.mp hA
  obtain ⟨nB, hB⟩ := Option.isSome_iff_exists.mp hB
  have hho : hasOwns s a b = false := any_eq_false_of_filter_nil _ _ h0
  unfold add_ownership
  rw [hA, hB]
  simp only [hho, Bool.false_eq_true, if_false]
  unfold ownsBetween at h0 ⊢
  simp only [List.filter_append, h0, List.nil_append]
  simp

/-- Merging when exactly one edge for the ordered pair exists rewrites its
properties in place. -/
theorem ownsBetween_add_update (s : Store) (a b : String) (p : OwnProps) (t : Nat) (e : Edge)
    (hA : (findOwner s a).isSome) (hB : (findTarget s b).isSome)
    (h1 : ownsBetween s a b = [e]) :
    ownsBetween (add_ownership s a b p t) a b = [applyProps e p t] := by
  obtain ⟨nA, hA⟩ := Option.isSome_iff_exists.mp hA
  obtain ⟨nB, hB⟩ := Option.isSome_iff_exists.mp hB
  have hho : hasOwns s a b = true := any_eq_true_of_filter_cons _ _ e [] h1
  have hpe : (fun e : Edge => e.source == a && e.target == b) e = true :=
    pred_of_filter_singleton _ _ e h1
  unfold add_ownership
  rw [hA, hB]
  simp only [hho, if_true]
  unfold ownsBetween at h1 ⊢
  rw [filter_map_pres _ _ ?hg, h1]
  case hg =>
    intro x
    by_cases hx : (x.source == a && x.target == b) = true
    · rw [if_pos hx, applyProps_source, applyProps_target]
    · rw [if_neg hx]
  simp only [List.map_cons, List.map_nil, hpe, if_true]

/-- `SET r += p` on an edge already carrying exactly the values of `p` changes
only the timestamp. -/
theorem applyProps_same (a b : String) (p : OwnProps) (t₀ t : Nat) :
    applyProps
      { source := a
        target := b
        share_percentage := p.share_percentage
        amount := p.amount
        updated_at := t₀ } p t =
      { source := a
        target := b
        share_percentage := p.share_percentage
        amount := p.amount
        updated_at := t } := by
  unfold applyProps
  cases p.share_percentage <;> cases p.amount <;> rfl

/-- After at least one merge, the store holds exactly one edge for the pair,
carrying the merged properties (timestamp evolving per call). -/
theorem mergeN_ownsBetween (s : Store) (a b : String) (p : OwnProps)
    (hA : (findOwner s a).isSome) (hB : (findTarget s b).isSome)
    (h0 : ownsBetween s a b = []) :
    ∀ n : Nat, 1 ≤ n → ∃ t : Nat,
      ownsBetween (mergeN s a b p n) a b =
        [{ source := a
           target := b
           share_percentage := p.share_percentage
           amount := p.amount
           updated_at := t }] := by
  intro n hn
  induction n with
  | zero => exact absurd hn (by simp)
  | succ k ih =>
    cases k with
    | zero =>
      refine ⟨0, ?_⟩
      show ownsBetween (add_ownership (mergeN s a b p 0) a b p 0) a b = _
      exact ownsBetween_add_create s a b p 0 hA hB h0
    | succ m =>
      obtain ⟨t, ht⟩ := ih (by simp)
      refine ⟨m + 1, ?_⟩
      have hA' : (findOwner (mergeN s a b p (m + 1)) a).isSome := by
        rw [findOwner_congr _ s a (mergeN_nodes s a b p (m + 1))]; exact hA
      have hB' : (findTarget (mergeN s a b p (m + 1)) b).isSome := by
        rw [findTarget_congr _ s b (mergeN_nodes s a b p (m + 1))]; exact hB
      show ownsBetween (add_ownership (mergeN s a b p (m + 1)) a b p (m + 1)) a b = _
      rw [ownsBetween_add_update _ a b p (m + 1) _ hA' hB' ht, applyProps_same]

/-- C1: for distinct entities A and B present in the store (A with a Fund or
Company label, B with a Company label) and no pre-existing OWNS edge A→B,
merging the ordered pair (A, B) any positive number of times with the same
properties leaves exactly one OWNS edge from A to B carrying those property
values: repeated merges update the existing edge rather than creating a
duplicate. -/
theorem C1_merge_owns_idempotent (s : Store) (A B : String) (p : OwnProps)
    (hAB : A ≠ B)
    (hA : (findOwner s A).isSome) (hB : (findTarget s B).isSome)
    (h0 : ownsBetween s A B = []) (n : Nat) (hn : 1 ≤ n) :
    (ownsBetween (mergeN s A B p n) A B).length = 1 ∧
      ∀ e ∈ ownsBetween (mergeN s A B p n) A B,
        e.source = A ∧ e.target = B ∧
          e.share_percentage = p.share_percentage ∧ e.amount = p.amount := by
  obtain ⟨t, ht⟩ := mergeN_ownsBetween s A B p hA hB h0 n hn
  rw [ht]
  refine ⟨rfl, ?_⟩
  intro e he
  rw [List.mem_singleton] at he
  subst he
  exact ⟨rfl, rfl, rfl, rfl⟩

/-- Investor AB, as used in EDGE_GENERATION.md's worked example. -/
def investorAB : Node :=
  { company_id := "556013-8298"
    name := "Investor AB"
    labels := [Label.fund]
    placeholder := false
    cluster_id := none
    embedding := none }

/-- Ericsson AB, as used in EDGE_GENERATION.md's worked example. -/
def ericssonAB : Node :=
  { company_id := "556016-0680"
    name := "Ericsson AB"
    labels := [Label.company]
    placeholder := false
    cluster_id := none
    embedding := none }

/-- A two-node store holding Investor AB and Ericsson AB and no edges. -/
def demoStore : Store :=
  { nodes := [investorAB, ericssonAB], edges := [] }

/-- Witness for C1 at the EDGE_GENERATION.md example: merging the 22 % Investor
AB → Ericsson edge three times leaves exactly one edge with those values. -/
theorem C1_merge_owns_idempotent_witness :
    (ownsBetween (mergeN demoStore "556013-8298" "556016-0680"
        { share_percentage := some 22, amount := none } 3) "556013-8298" "556016-0680").length = 1 ∧
      ∀ e ∈ ownsBetween (mergeN demoStore "556013-8298" "556016-0680"
          { share_percentage := some 22, amount := none } 3) "556013-8298" "556016-0680",
        e.source = "556013-8298" ∧ e.target = "556016-0680" ∧
          e.share_percentage = some 22 ∧ e.amount = none :=
  C1_merge_owns_idempotent demoStore "556013-8298" "556016-0680"
    { share_percentage := some 22, amount := none }
    (by decide) (by decide) (by decide) (by decide) 3 (by decide)

/-- No edge of the store is a self-loop. -/
def noSelfLoops (s : Store) : Bool :=
  s.edges.all (fun e => !(e.source == e.target))

theorem all_map_pres {α : Type} (g : α → α) (q : α → Bool) (hg : ∀ x, q (g x) = q x)
    (l : List α) : (l.map g).all q = l.all q := by
  induction l with
  | nil => rfl
  | cons x l ih => simp only [List.map_cons, List.all_cons, hg, ih]

/-- The raw Cypher merge preserves freedom from self-loops whenever the
ordered pair it is called on is not itself a self-loop. -/
theorem noSelfLoops_add_ownership (s : Store) (a b : String) (p : OwnProps) (t : Nat)
    (hab : (a == b) = false) (hs : noSelfLoops s = true) :
    noSelfLoops (add_ownership s a b p t) = true := by
  unfold add_ownership
  split
  · split
    · unfold noSelfLoops at hs ⊢
      rw [all_map_pres]
      · exact hs
      · intro x
        by_cases hx : (x.source == a && x.target == b) = true
        · rw [if_pos hx, applyProps_source, applyProps_target]
        · rw [if_neg hx]
    · unfold noSelfLoops at hs ⊢
      simp only [List.all_append, hs, Bool.true_and, List.all_cons, List.all_nil,
        Bool.and_true, hab, Bool.not_false]
  · exact hs

/-- C3: a relationship-merge request whose source equals its target is rejected
with the self-loop validation error, returning the store unchanged; and the
merge path never introduces a self-loop edge into a store free of them. -/
theorem C3_selfloop_rejected (s : Store) (src tgt : String) (pct amount : Option Rat)
    (now : Nat) :
    (src = tgt →
        merge_relationship s src tgt pct amount now = (s, some ValidationError.selfLoop)) ∧
      (noSelfLoops s = true →
        noSelfLoops (merge_relationship s src tgt pct amount now).1 = true) := by
  constructor
  · intro h
    unfold merge_relationship
    rw [if_pos (beq_iff_eq.mpr h)]
  · intro hs
    unfold merge_relationship
    by_cases h : (src == tgt) = true
    · rw [if_pos h]
      exact hs
    · rw [if_neg h]
      by_cases hv : validOwnership pct = true
      · rw [if_pos hv]
        exact noSelfLoops_add_ownership s src tgt _ now (Bool.not_eq_true _ ▸ h) hs
      · rw [if_neg hv]
        exact hs

/-- Witness for C3: a self-loop request on Investor AB is rejected with the
store unchanged, and a well-formed request keeps the store self-loop free. -/
theorem C3_selfloop_rejected_witness :
    merge_relationship demoStore "556013-8298" "556013-8298" (some 22) none 0 =
        (demoStore, some ValidationError.selfLoop) ∧
      noSelfLoops (merge_relationship demoStore "556013-8298" "556016-0680"
        (some 22) none 0).1 = true :=
  ⟨(C3_selfloop_rejected demoStore "556013-8298" "556013-8298" (some 22) none 0).1 rfl,
    (C3_selfloop_rejected demoStore "556013-8298" "556016-0680" (some 22) none 0).2 (by decide)⟩

/-- C4: a relationship request whose ownership percentage lies outside [0, 100]
is rejected with a validation error and the returned store is exactly the input
store: no edge is created, no edge is modified, and the value is never clamped
into range. -/
theorem C4_percentage_out_of_range_rejected (s : Store) (src tgt : String) (v : Rat)
    (amount : Option Rat) (now : Nat) (hv : v < 0 ∨ 100 < v) :
    (merge_relationship s src tgt (some v) amount now).1 = s ∧
      (merge_relationship s src tgt (some v) amount now).2.isSome = true := by
  have hbad : validOwnership (some v) = false := by
    show (decide (0 ≤ v) && decide (v ≤ 100)) = false
    rcases hv with h | h
    · rw [decide_eq_false (not_le.mpr h), Bool.false_and]
    · rw [decide_eq_false (not_le.mpr h), Bool.and_false]
  unfold merge_relationship
  by_cases h : (src == tgt) = true
  · rw [if_pos h]
    exact ⟨rfl, rfl⟩
  · rw [if_neg h, if_neg (by rw [hbad]; exact Bool.false_ne_true)]
    exact ⟨rfl, rfl⟩

/-- Witness for C4, the spec's scenario: `ownership_pct = 150.0` is rejected
and the store comes back untouched. -/
theorem C4_percentage_out_of_range_rejected_witness :
    (merge_relationship demoStore "556013-8298" "556016-0680" (some 150) none 0).1 =
        demoStore ∧
      (merge_relationship demoStore "556013-8298" "556016-0680"
        (some 150) none 0).2.isSome = true :=
  C4_percentage_out_of_range_rejected demoStore "556013-8298" "556016-0680" 150 none 0
    (Or.inr (by norm_num))

/-- `scripts/fix_dual_labeled_funds.cypher`:

```
MATCH (n)
WHERE 'Company' IN labels(n) AND 'Fund' IN labels(n)
REMOVE n:Company
```

removes the Company label from every node carrying both roles. -/
def fix_dual_labeled_funds (s : Store) : Store :=
  { s with nodes := s.nodes.map (fun n =>
      if n.labels.contains Label.company && n.labels.contains Label.fund then
        { n with labels := n.labels.filter (fun l => !(l == Label.company)) }
      else n) }

theorem contains_filter_ne {α : Type} [DecidableEq α] (a : α) (l : List α) :
    (l.filter (fun x => !(x == a))).contains a = false := by
  induction l with
  | nil => rfl
  | cons x l ih =>
    rw [List.filter_cons]
    by_cases hx : x = a
    · subst hx
      simp only [beq_self_eq_true, Bool.not_true, Bool.false_eq_true, if_false]
      exact ih
    · rw [if_pos (by simp [hx]), List.contains_cons, ih]
      simp [Ne.symm hx]

theorem all_map_of_forall {α β : Type} (g : α → β) (q : β → Bool)
    (h : ∀ x, q (g x) = true) (l : List α) : (l.map g).all q = true := by
  induction l with
  | nil => rfl
  | cons x l ih => simp only [List.map_cons, List.all_cons, h, ih, Bool.and_self]

/-- A fund node that also carries the Company label: the state
`fix_dual_labeled_funds.cypher` exists to repair. -/
def dualLabeledFund : Node :=
  { company_id := "556013-8298"
    name := "Investor AB"
    labels := [Label.company, Label.fund]
    placeholder := false
    cluster_id := none
    embedding := none }

/-- C7: the repository's repair script targets nodes labeled both Company and
Fund — a state the spec's exactly-one-role invariant forbids — and removes the
Company label from them: on a store holding such a dual-labeled node the script
rewrites it to Fund-only (so the forbidden state is representable and actually
handled), and after the script runs no node carries both labels. -/
theorem C7_dual_label_repair :
    fix_dual_labeled_funds { nodes := [dualLabeledFund], edges := [] } =
        { nodes := [{ dualLabeledFund with labels := [Label.fund] }], edges := [] } ∧
      ∀ s : Store, (fix_dual_labeled_funds s).nodes.all
        (fun n => !(n.labels.contains Label.company && n.labels.contains Label.fund)) = true := by
  constructor
  · rfl
  · intro s
    unfold fix_dual_labeled_funds
    apply all_map_of_forall
    intro n
    by_cases hd : (n.labels.contains Label.company && n.labels.contains Label.fund) = true
    · rw [if_pos hd]
      simp only [contains_filter_ne, Bool.false_and, Bool.not_false]
    · rw [if_neg hd]
      simp only [Bool.not_eq_true] at hd
      rw [hd]
      rfl

/-- The JavaScript `x || d` idiom on an optional number: `null`, `undefined`
and `0` are falsy and give the default. -/
def jsOrInt (v : Option Int) (d : Int) : Int :=
  match v with
  | none => d
  | some x => if x == 0 then d else x

/-- The JavaScript `x || d` idiom on an optional string: `null`, `undefined`
and the empty string are falsy and give the default. -/
def jsOrStr (v : Option String) (d : String) : String :=
  match v with
  | none => d
  | some x => if x == "" then d else x

/-- A node of the `/api/v1/search/all` response, with the fields read by the
DataTable `fetchEntities` mapping; an absent or null JSON field is `none`. -/
structure ApiNode where
  id : String
  name : String
  entityType : String
  orgNumber : Option String
  sector : Option String
  cluster : Option Int
  country : Option String
  deriving DecidableEq, Repr

/-- A row of the dashboard table (`interface Entity` in the DataTable source),
restricted to the fields the mapping computes. -/
structure EntityRow where
  id : String
  name : String
  entityType : String
  orgNumber : String
  sector : String
  cluster : Int
  country : String
  deriving DecidableEq, Repr

/-- The per-node mapping of `fetchEntities` in the DataTable component
(ownership aggregation aside):
`orgNumber: node.orgNumber || "-"`,
`sector: node.sector && node.sector !== "Unknown" ? node.sector : "—"`,
`cluster: node.cluster || 0`,
`country: node.country || "Unknown"`. -/
def processNode (n : ApiNode) : EntityRow :=
  { id := n.id
    name := n.name
    entityType := n.entityType
    orgNumber := jsOrStr n.orgNumber "-"
    sector := match n.sector with
      | none => "—"
      | some x => if x == "" then "—" else if x == "Unknown" then "—" else x
    cluster := jsOrInt n.cluster 0
    country := jsOrStr n.country "Unknown" }

/-- C9: a node whose cluster field is null, undefined or 0 is recorded with
cluster 0 by the DataTable mapping, so an entity with no cluster assignment is
indistinguishable in the table from a member of cluster #0; a missing orgNumber
is rendered as "-". -/
theorem C9_null_cluster_becomes_zero (n : ApiNode) :
    ((n.cluster = none ∨ n.cluster = some 0) → (processNode n).cluster = 0) ∧
      processNode { n with cluster := none } = processNode { n with cluster := some 0 } ∧
      (n.orgNumber = none → (processNode n).orgNumber = "-") := by
  refine ⟨?_, ?_, ?_⟩
  · rintro (h | h) <;> simp [processNode, jsOrInt, h]
  · simp [processNode, jsOrInt]
  · intro h
    simp [processNode, jsOrStr, h]

/-- A search result lacking both a cluster assignment and an org number. -/
def unclusteredApiNode : ApiNode :=
  { id := "e1"
    name := "Ericsson AB"
    entityType := "company"
    orgNumber := none
    sector := some "Telecom"
    cluster := none
    country := some "SE" }

/-- Witness for C9 on a concrete unclustered search result. -/
theorem C9_null_cluster_becomes_zero_witness :
    (processNode unclusteredApiNode).cluster = 0 ∧
      processNode { unclusteredApiNode with cluster := none } =
        processNode { unclusteredApiNode with cluster := some 0 } ∧
      (processNode unclusteredApiNode).orgNumber = "-" :=
  ⟨(C9_null_cluster_becomes_zero unclusteredApiNode).1 (Or.inl rfl),
    (C9_null_cluster_becomes_zero unclusteredApiNode).2.1,
    (C9_null_cluster_becomes_zero unclusteredApiNode).2.2 rfl⟩

/-- The outcome of one call of `ChatPanel.handleSubmit`: whether a POST to
`/api/v1/chat` is issued and with which message body, and the error and
loading flags after the synchronous guard section. -/
structure SubmitOutcome where
  request : Option String
  hasError : Bool
  isLoading : Bool
  deriving DecidableEq, Repr

/-- JavaScript `String.prototype.trim`: drop leading and trailing whitespace. -/
def jsTrim (s : String) : String :=
  ⟨((s.data.dropWhile Char.isWhitespace).reverse.dropWhile Char.isWhitespace).reverse⟩

/-- `ChatPanel.handleSubmit` guard logic from the dashboard source:
`if (!input.trim() || isLoading) return;` then
`if (!isHealthy) { setHasError(true); return; }` then
`setIsLoading(true); setHasError(false);` and the POST of the trimmed input
to `/api/v1/chat`. -/
def handleSubmit (input : String) (isLoading isHealthy hasError : Bool) : SubmitOutcome :=
  if jsTrim input == "" || isLoading then
    { request := none, hasError := hasError, isLoading := isLoading }
  else if !isHealthy then
    { request := none, hasError := true, isLoading := isLoading }
  else
    { request := some (jsTrim input), hasError := false, isLoading := true }

/-- C10: `handleSubmit` issues the POST exactly when the trimmed input is
non-empty, no request is in flight, and the last health check succeeded; and in
the rejected case where only the health check fails, no request is sent and the
error flag is set instead. -/
theorem C10_chat_submit_guard (input : String) (isLoading isHealthy hasError : Bool) :
    ((handleSubmit input isLoading isHealthy hasError).request.isSome = true ↔
        (jsTrim input ≠ "" ∧ isLoading = false ∧ isHealthy = true)) ∧
      (jsTrim input ≠ "" → isLoading = false → isHealthy = false →
        handleSubmit input isLoading isHealthy hasError =
          { request := none, hasError := true, isLoading := false }) := by
  cases isLoading <;> cases isHealthy <;>
    by_cases ht : jsTrim input = "" <;>
      simp [handleSubmit, ht]

/-- Witness for C10: a non-empty message with an idle panel posts exactly when
the backend is healthy, and sets the error flag when it is not. -/
theorem C10_chat_submit_guard_witness :
    ((handleSubmit "hello" false true false).request.isSome = true ↔
        (jsTrim "hello" ≠ "" ∧ false = false ∧ true = true)) ∧
      handleSubmit "hello" false false false =
        { request := none, hasError := true, isLoading := false } :=
  ⟨(C10_chat_submit_guard "hello" false true false).1,
    (C10_chat_submit_guard "hello" false false false).2 (by decide) rfl rfl⟩

/-- Insert into a duplicate-free accumulator, skipping elements already
present. -/
def insertD {α : Type} [DecidableEq α] (acc : List α) (a : α) : List α :=
  if a ∈ acc then acc else acc ++ [a]

/-- The OWNS edges incident to `id` in either direction — one undirected step
of the variable-length pattern `-[r:OWNS*1..$depth]-`. -/
def adjacentEdges (s : Store) (id : String) : List Edge :=
  s.edges.filter (fun e => e.source == id || e.target == id)

/-- The far endpoint of an incident edge. -/
def otherEnd (e : Edge) (id : String) : String :=
  if e.source == id then e.target else e.source

/-- Modelled from the spec: the result assembly of
`GET /v1/relationships/network/{entity_id}?depth=` in
`relationship_queries.py`, whose Python source is not in the repository
snapshot (EDGE_GENERATION.md quotes only the Cypher line
`MATCH path = (root {company_id: $entity_id})-[r:OWNS*1..$depth]-(connected)`).
Per spec §4.5 it expands ownership edges in both directions up to `depth` hops
with visited-node tracking, deduplicating nodes and edges reached via multiple
paths. -/
def networkLoop (s : Store) :
    Nat → List String → List String → List Edge → List String × List Edge
  | 0, _, visited, edges => (visited, edges)
  | d + 1, frontier, visited, edges =>
    let edges2 := frontier.foldl (fun acc id => (adjacentEdges s id).foldl insertD acc) edges
    let nbrs := frontier.foldl
      (fun acc id => (adjacentEdges s id).foldl (fun a e => insertD a (otherEnd e id)) acc) []
    let fresh := nbrs.filter (fun i => !(visited.contains i))
    networkLoop s d fresh (visited ++ fresh) edges2

/-- `get_network(entity_id, depth)`: bounded-depth traversal from the root. -/
def get_network (s : Store) (root : String) (depth : Nat) : List String × List Edge :=
  networkLoop s depth [root] [root] []

theorem insertD_nodup {α : Type} [DecidableEq α] (acc : List α) (a : α)
    (h : acc.Nodup) : (insertD acc a).Nodup := by
  unfold insertD
  by_cases hmem : a ∈ acc
  · rw [if_pos hmem]
    exact h
  · rw [if_neg hmem, List.nodup_append]
    refine ⟨h, List.nodup_singleton a, ?_⟩
    intro x hx hm
    rw [List.mem_singleton] at hm
    subst hm
    exact hmem hx

theorem foldl_insertD_nodup {α β : Type} [DecidableEq α] (f : β → α) (l : List β) :
    ∀ acc : List α, acc.Nodup → (l.foldl (fun a x => insertD a (f x)) acc).Nodup := by
  induction l with
  | nil => intro acc h; exact h
  | cons x l ih =>
    intro acc h
    exact ih (insertD acc (f x)) (insertD_nodup acc (f x) h)

theorem foldl_foldl_insertD_nodup {α β γ : Type} [DecidableEq α] (g : β → List γ)
    (f : β → γ → α) (l : List β) :
    ∀ acc : List α, acc.Nodup →
      (l.foldl (fun a x => (g x).foldl (fun a2 y => insertD a2 (f x y)) a) acc).Nodup := by
  induction l with
  | nil => intro acc h; exact h
  | cons x l ih =>
    intro acc h
    exact ih _ (foldl_insertD_nodup (f x) (g x) acc h)

theorem networkLoop_nodup (s : Store) (d : Nat) :
    ∀ (frontier visited : List String) (edges : List Edge),
      visited.Nodup → edges.Nodup →
      (networkLoop s d frontier visited edges).1.Nodup ∧
        (networkLoop s d frontier visited edges).2.Nodup := by
  induction d with
  | zero => intro f v e hv he; exact ⟨hv, he⟩
  | succ d ih =>
    intro f v e hv he
    apply ih
    · rw [List.nodup_append]
      refine ⟨hv, List.Nodup.filter _ ?_, ?_⟩
      · exact foldl_foldl_insertD_nodup (fun id => adjacentEdges s id)
          (fun id e => otherEnd e id) f [] List.nodup_nil
      · intro x hx hmem
        have hf := List.of_mem_filter hmem
        have hc : v.contains x = true := List.elem_eq_true_of_mem hx
        rw [hc] at hf
        simp at hf
    · exact foldl_foldl_insertD_nodup (fun id => adjacentEdges s id)
        (fun _ e => e) f e he

/-- C5: for every store — ownership cycles included — root and depth,
`get_network` is a total function of the depth bound and returns an edge list
with no duplicate edges (and a node list with no duplicate nodes), even when
several paths of length ≤ depth reach the same pair. -/
theorem C5_network_no_duplicate_edges (s : Store) (root : String) (depth : Nat) :
    (get_network s root depth).2.Nodup ∧ (get_network s root depth).1.Nodup := by
  have h := networkLoop_nodup s depth [root] [root] []
    (List.nodup_singleton root) List.nodup_nil
  exact ⟨h.2, h.1⟩

/-- A weighted similarity edge of the K-NN graph built by the analytics
collaborator. -/
structure SimEdge where
  a : String
  b : String
  weight : Rat
  deriving DecidableEq, Repr

/-- Persist the partition: each node found in the partition map gets its
cluster id, nothing else changes. -/
def writeClusters (s : Store) (part : List (String × Int)) : Store :=
  { s with nodes := s.nodes.map (fun n =>
      match part.find? (fun q => q.1 == n.company_id) with
      | some q => { n with cluster_id := some q.2 }
      | none => n) }

/-- Embedding step of the pipeline: give every node lacking a vector one from
the embedding collaborator; `none` when the collaborator fails on any of
them. -/
def embedAll (embed : Node → Option (List Rat)) : List Node → Option (List Node)
  | [] => some []
  | n :: ns =>
    let v : Option (List Rat) :=
      match n.embedding with
      | some v => some v
      | none => embed n
    match v, embedAll embed ns with
    | some w, some rest => some ({ n with embedding := some w } :: rest)
    | _, _ => none

/-- Modelled from the spec: the clustering pipeline of
`app.services.graph_service` (GDS_SETUP.md documents its steps — embeddings,
K-NN similarity, Leiden — but its Python source is not in the repository
snapshot).  Per spec §4.4/§7 the run generates missing embeddings, builds the
similarity graph, runs community detection, and persists cluster assignments
only after the full partition is available; any step failing aborts the run.
The Bool reports completion. -/
def run_clustering_pipeline (s : Store) (embed : Node → Option (List Rat))
    (knn : List Node → Option (List SimEdge))
    (leiden : List SimEdge → Option (List (String × Int))) : Store × Bool :=
  match embedAll embed s.nodes with
  | none => (s, false)
  | some nodes1 =>
    match knn nodes1 with
    | none => (s, false)
    | some g =>
      match leiden g with
      | none => (s, false)
      | some part => (writeClusters s part, true)

/-- C8: the clustering pipeline is atomic for cluster ids: every run either
reports total failure and returns the store untouched (so no entity's
cluster_id is written at all), or completes and writes the whole Leiden
partition in one final step — no partial write is reachable. -/
theorem C8_pipeline_no_partial_cluster_writes (s : Store)
    (embed : Node → Option (List Rat)) (knn : List Node → Option (List SimEdge))
    (leiden : List SimEdge → Option (List (String × Int))) :
    run_clustering_pipeline s embed knn leiden = (s, false) ∨
      ∃ part, run_clustering_pipeline s embed knn leiden = (writeClusters s part, true) := by
  unfold run_clustering_pipeline
  split
  · exact Or.inl rfl
  · split
    · exact Or.inl rfl
    · split
      · exact Or.inl rfl
      · exact Or.inr ⟨_, rfl⟩

/-- Resolution outcome of the Entity Resolver (spec §4.1/§9: a tagged
variant rather than ad hoc nullability checks). -/
inductive ResolutionResult where
  | found (id : String)
  | created (id : String)
  | ambiguous (candidates : List String)
  deriving DecidableEq, Repr

/-- An extracted entity reference: a name, an optional external registry id, an
optional type hint, and the optional ownership percentage carried by portfolio
items (`EntityRef` with `ownership_pct` in PORTFOLIO_INGESTION.md). -/
structure RefIn where
  name : String
  external_id : Option String
  type_hint : Option Label
  ownership_pct : Option Rat
  deriving DecidableEq, Repr

/-- Node lookup by canonical id. -/
def findNode (s : Store) (id : String) : Option Node :=
  s.nodes.find? (fun n => n.company_id == id)

/-- Lower-case a string character-wise (ASCII case folding). -/
def lowerChars (s : String) : String :=
  ⟨s.data.map Char.toLower⟩

/-- Modelled from the spec: legal-form suffixes ignored by the resolver's
name normalisation. -/
def legalSuffixes : List String :=
  [" ab", " abp", " asa", " oyj", " a/s"]

/-- Strip one trailing legal-form suffix, if any. -/
def stripLegalSuffix (n : String) : String :=
  match legalSuffixes.find? (fun suf => suf.data.isSuffixOf n.data) with
  | some suf => ⟨n.data.take (n.data.length - suf.data.length)⟩
  | none => n

/-- Modelled from the spec: the case- and legal-suffix-insensitive name
normalisation of the resolver's name lookup (spec §4.1; diacritic folding is
not modelled). -/
def normalizeName (n : String) : String :=
  stripLegalSuffix (lowerChars n)

/-- The stored entities whose normalised name matches the reference's. -/
def nameCands (s : Store) (name : String) : List Node :=
  s.nodes.filter (fun n => normalizeName n.name == normalizeName name)

/-- A placeholder entity created for an unresolved reference (spec §4.1):
`placeholder = true`, labelled from the type hint (Company by default). -/
def mkPlaceholder (ref : RefIn) (id : String) : Node :=
  { company_id := id
    name := ref.name
    labels := [ref.type_hint.getD Label.company]
    placeholder := true
    cluster_id := none
    embedding := none }

/-- The id a newly created entity receives: the external id when present,
a generated surrogate otherwise. -/
def newIdOf (ref : RefIn) (surrogate : String) : String :=
  ref.external_id.getD surrogate

/-- Modelled from the spec: the resolver's normalised-name lookup, falling back
to placeholder creation (spec §4.1). -/
def resolveByName (s : Store) (ref : RefIn) (surrogate : String) :
    ResolutionResult × Store :=
  match nameCands s ref.name with
  | [] =>
    (ResolutionResult.created (newIdOf ref surrogate),
      { s with nodes := s.nodes ++ [mkPlaceholder ref (newIdOf ref surrogate)] })
  | [n] => (ResolutionResult.found n.company_id, s)
  | ns => (ResolutionResult.ambiguous (ns.map (fun n => n.company_id)), s)

/-- Modelled from the spec: `resolve(reference)` of the Entity Resolver
(`lookup_or_create_company` in `app/services/portfolio_ingestion.py`, whose
Python source is not in the repository snapshot): external-id lookup first,
then normalised-name lookup, then creation of a placeholder entity. -/
def resolve (s : Store) (ref : RefIn) (surrogate : String) :
    ResolutionResult × Store :=
  match ref.external_id with
  | some eid =>
    match findNode s eid with
    | some _ => (ResolutionResult.found eid, s)
    | none => resolveByName s ref surrogate
  | none => resolveByName s ref surrogate

/-- C6: a reference whose external id matches a stored entity resolves to
`found` with that id, leaving the store unmutated; a reference matching no
entity by external id and none by normalised name creates exactly one new
entity, a placeholder whose id is the external id when present and the
generated surrogate otherwise, and resolves to `created`. -/
theorem C6_resolver_found_or_placeholder (s : Store) (ref : RefIn) (surrogate : String) :
    (∀ eid, ref.external_id = some eid → (findNode s eid).isSome = true →
        resolve s ref surrogate = (ResolutionResult.found eid, s)) ∧
      ((∀ eid, ref.external_id = some eid → findNode s eid = none) →
        nameCands s ref.name = [] →
        resolve s ref surrogate =
            (ResolutionResult.created (newIdOf ref surrogate),
              { s with nodes := s.nodes ++ [mkPlaceholder ref (newIdOf ref surrogate)] }) ∧
          (mkPlaceholder ref (newIdOf ref surrogate)).placeholder = true) := by
  constructor
  · intro eid he hf
    obtain ⟨n, hn⟩ := Option.isSome_iff_exists.mp hf
    unfold resolve
    rw [he]
    show (match findNode s eid with
      | some _ => (ResolutionResult.found eid, s)
      | none => resolveByName s ref surrogate) = (ResolutionResult.found eid, s)
    rw [hn]
  · intro hext hname
    refine ⟨?_, rfl⟩
    unfold resolve
    cases he : ref.external_id with
    | none =>
      unfold resolveByName
      rw [hname]
    | some eid =>
      show (match findNode s eid with
        | some _ => (ResolutionResult.found eid, s)
        | none => resolveByName s ref surrogate) =
        (ResolutionResult.created (newIdOf ref surrogate),
          { s with nodes := s.nodes ++ [mkPlaceholder ref (newIdOf ref surrogate)] })
      rw [hext eid he]
      unfold resolveByName
      rw [hname]

/-- A reference to Investor AB by organisation number. -/
def refInvestor : RefIn :=
  { name := "Investor AB", external_id := some "556013-8298",
    type_hint := some Label.fund, ownership_pct := none }

/-- A reference to an entity absent from the demo store. -/
def refNokia : RefIn :=
  { name := "Nokia Oyj", external_id := some "0112038-9",
    type_hint := none, ownership_pct := none }

/-- Witness for C6: Investor AB's org number resolves to `found` against the
demo store without mutating it; an unknown reference creates one placeholder
keyed by its external id and resolves to `created`. -/
theorem C6_resolver_found_or_placeholder_witness :
    resolve demoStore refInvestor "gen-1" =
        (ResolutionResult.found "556013-8298", demoStore) ∧
      (resolve demoStore refNokia "gen-2" =
          (ResolutionResult.created "0112038-9",
            { demoStore with nodes := demoStore.nodes ++ [mkPlaceholder refNokia "0112038-9"] }) ∧
        (mkPlaceholder refNokia "0112038-9").placeholder = true) :=
  ⟨(C6_resolver_found_or_placeholder demoStore refInvestor "gen-1").1
      "556013-8298" rfl (by decide),
    (C6_resolver_found_or_placeholder demoStore refNokia "gen-2").2
      (by intro eid he; injection he with h; subst h; decide) (by decide)⟩

/-- Modelled from the spec: the canonical id chosen for an ingestion
reference, applying the spec's default policy for ambiguous resolutions
(prefer a non-placeholder candidate; otherwise create a fresh placeholder
rather than guess). -/
def resolveForIngest (s : Store) (ref : RefIn) (surrogate : String) : String × Store :=
  match resolve s ref surrogate with
  | (ResolutionResult.found id, s1) => (id, s1)
  | (ResolutionResult.created id, s1) => (id, s1)
  | (ResolutionResult.ambiguous cands, s1) =>
    match cands.find? (fun cid =>
        match findNode s1 cid with
        | some n => !n.placeholder
        | none => false) with
    | some cid => (cid, s1)
    | none => (surrogate, { s1 with nodes := s1.nodes ++ [mkPlaceholder ref surrogate] })

/-- Surrogate-id generator for references lacking an external id (modelled as
a deterministic tag of the name; the source uses `randomUUID()`). -/
def surrogateFor (ref : RefIn) : String :=
  "gen:" ++ ref.name

/-- One portfolio item of the ingestion loop (spec §4.3): resolve the
reference, then merge an OWNS edge from the current entity to it through the
validating merger; the resolved id is collected for enqueueing. -/
def processRef (src : String) (now : Nat) (acc : Store × List String) (ref : RefIn) :
    Store × List String :=
  let r := resolveForIngest acc.1 ref (surrogateFor ref)
  let s2 := (merge_relationship r.2 src r.1 ref.ownership_pct none now).1
  (s2, acc.2 ++ [r.1])

/-- Run state of one ingestion run: the store plus the run-scoped visited set
(spec §3 "Ingestion Run"). -/
structure RunSt where
  store : Store
  visited : List String
  deriving DecidableEq, Repr

/-- Modelled from the spec: the worklist of `ingest_company_with_portfolio`
(`app/services/portfolio_ingestion.py`, whose Python source is not in the
repository snapshot; PORTFOLIO_INGESTION.md describes it): pop an id with its
depth; skip it when it is in the run's visited set (the cycle guard);
otherwise mark it visited, fetch its portfolio from the extraction
collaborator `pf`, resolve each returned reference and merge an OWNS edge,
and enqueue the resolved ids one level deeper while `depth < maxDepth`.
The fuel argument makes the recursion structural; termination on an input is
the theorem that every large enough fuel returns `some` result. -/
def ingestLoop (pf : String → List RefIn) (maxDepth : Nat) :
    Nat → List (String × Nat) → RunSt → Option RunSt
  | 0, _, _ => none
  | _ + 1, [], st => some st
  | fuel + 1, (id, d) :: q, st =>
    if st.visited.contains id then ingestLoop pf maxDepth fuel q st
    else
      let res := (pf id).foldl (processRef id d) (st.store, [])
      let q2 := if d < maxDepth then q ++ res.2.map (fun rid => (rid, d + 1)) else q
      ingestLoop pf maxDepth fuel q2 { store := res.1, visited := id :: st.visited }

/-- Modelled from the spec: one ingestion run from a root reference —
resolve the root, seed the worklist with it at depth 0, drain. -/
def ingest_company_with_portfolio (pf : String → List RefIn) (maxDepth fuel : Nat)
    (root : RefIn) (s : Store) : Option RunSt :=
  let r := resolveForIngest s root (surrogateFor root)
  ingestLoop pf maxDepth fuel [(r.1, 0)] { store := r.2, visited := [] }

/-- The run's visited set never collects an id twice: the loop only adds an
id after checking it is not yet visited. -/
theorem ingestLoop_visited_nodup (pf : String → List RefIn) (maxDepth : Nat) :
    ∀ (fuel : Nat) (q : List (String × Nat)) (st st' : RunSt),
      st.visited.Nodup → ingestLoop pf maxDepth fuel q st = some st' →
      st'.visited.Nodup := by
  intro fuel
  induction fuel with
  | zero => intro q st st' _ h; exact absurd h (by simp [ingestLoop])
  | succ fuel ih =>
    intro q st st' hv h
    cases q with
    | nil =>
      rw [ingestLoop] at h
      cases h
      exact hv
    | cons e q =>
      obtain ⟨id, d⟩ := e
      rw [ingestLoop] at h
      by_cases hc : st.visited.contains id = true
      · rw [if_pos hc] at h
        exact ih q st st' hv h
      · rw [if_neg hc] at h
        refine ih _ _ st' ?_ h
        refine List.Nodup.cons ?_ hv
        intro hmem
        exact hc (List.elem_eq_true_of_mem hmem)

/-- The empty graph store. -/
def emptyStore : Store :=
  { nodes := [], edges := [] }

/-- A portfolio reference to `id` by external id (name equal to the id). -/
def idRef (id : String) (pct : Option Rat) : RefIn :=
  { name := id, external_id := some id, type_hint := none, ownership_pct := pct }

/-- Extraction data containing exactly mutual ownership: A's portfolio is B
and B's portfolio is A. -/
def mutualPf (A B : String) (pAB pBA : Option Rat) : String → List RefIn :=
  fun x => if x == A then [idRef B pAB] else if x == B then [idRef A pBA] else []

/-- The entity node created for a self-named reference in the mutual-ownership
scenario. -/
def scenNode (id : String) : Node :=
  { company_id := id, name := id, labels := [Label.company], placeholder := true,
    cluster_id := none, embedding := none }

/-- The OWNS edge merged for one scenario portfolio item. -/
def scenEdge (a b : String) (pct : Option Rat) (t : Nat) : Edge :=
  { source := a, target := b, share_percentage := pct, amount := none, updated_at := t }

/-- Running ingestion on the mutual-ownership data from root `A` computes, for
every fuel ≥ 4 and depth bound ≥ 1, the two-node two-edge result with each id
visited once. -/
theorem mutual_run_from_root (A B : String) (pAB pBA : Option Rat) (maxDepth k : Nat)
    (hn : normalizeName A ≠ normalizeName B) (hd : 1 ≤ maxDepth)
    (hpa : validOwnership pAB = true) (hpb : validOwnership pBA = true) :
    ingest_company_with_portfolio (mutualPf A B pAB pBA) maxDepth (k + 4)
        (idRef A none) emptyStore =
      some { store := { nodes := [scenNode A, scenNode B],
                        edges := [scenEdge A B pAB 0, scenEdge B A pBA 1] },
             visited := [B, A] } := by
  have hAB : A ≠ B := fun h => hn (by rw [h])
  have f1 : (A == B) = false := beq_eq_false_iff_ne.mpr hAB
  have f2 : (B == A) = false := beq_eq_false_iff_ne.mpr (Ne.symm hAB)
  have f3 : (normalizeName A == normalizeName B) = false := beq_eq_false_iff_ne.mpr hn
  have f4 : (normalizeName B == normalizeName A) = false :=
    beq_eq_false_iff_ne.mpr (Ne.symm hn)
  have h0d : 0 < maxDepth := hd
  by_cases h1 : 1 < maxDepth
  · simp [ingest_company_with_portfolio, resolveForIngest, resolve, idRef, findNode,
      emptyStore, resolveByName, nameCands, newIdOf, mkPlaceholder, surrogateFor,
      ingestLoop, processRef, merge_relationship, add_ownership, findOwner, findTarget,
      ownerLabelOk, hasOwns, mutualPf, f1, f2, f3, f4, hpa, hpb, h0d, h1,
      List.contains, List.elem, scenNode, scenEdge]
  · simp [ingest_company_with_portfolio, resolveForIngest, resolve, idRef, findNode,
      emptyStore, resolveByName, nameCands, newIdOf, mkPlaceholder, surrogateFor,
      ingestLoop, processRef, merge_relationship, add_ownership, findOwner, findTarget,
      ownerLabelOk, hasOwns, mutualPf, f1, f2, f3, f4, hpa, hpb, h0d, h1,
      List.contains, List.elem, scenNode, scenEdge]

/-- The mutual-ownership portfolio data is symmetric in its two entities. -/
theorem mutualPf_comm (A B : String) (pAB pBA : Option Rat) (hAB : A ≠ B) :
    mutualPf A B pAB pBA = mutualPf B A pBA pAB := by
  funext x
  unfold mutualPf
  by_cases hxa : (x == A) = true <;> by_cases hxb : (x == B) = true
  · exact absurd (beq_iff_eq.mp hxa ▸ beq_iff_eq.mp hxb) (by simpa using hAB)
  · simp [hxa, hxb]
  · simp [hxa, hxb]
  · simp [hxa, hxb]

/-- C2: for mutual-ownership extraction data (A's portfolio is B and B's is A,
with distinct normalised names and valid percentages), an ingestion run started
from either root terminates for every fuel ≥ 4 and depth bound ≥ 1, produces
exactly the two OWNS edges A→B and B→A rather than unbounded recursive
expansion, and its visited set holds each organisation id exactly once. -/
theorem C2_mutual_ownership_ingestion (A B : String) (pAB pBA : Option Rat)
    (maxDepth fuel : Nat) (hn : normalizeName A ≠ normalizeName B)
    (hd : 1 ≤ maxDepth) (hf : 4 ≤ fuel)
    (hpa : validOwnership pAB = true) (hpb : validOwnership pBA = true) :
    (∃ st : RunSt,
        ingest_company_with_portfolio (mutualPf A B pAB pBA) maxDepth fuel
            (idRef A none) emptyStore = some st ∧
          st.store.edges.map (fun e => (e.source, e.target)) = [(A, B), (B, A)] ∧
          st.visited = [B, A] ∧ st.visited.Nodup) ∧
      (∃ st : RunSt,
        ingest_company_with_portfolio (mutualPf A B pAB pBA) maxDepth fuel
            (idRef B none) emptyStore = some st ∧
          st.store.edges.map (fun e => (e.source, e.target)) = [(B, A), (A, B)] ∧
          st.visited = [A, B] ∧ st.visited.Nodup) := by
  have hAB : A ≠ B := fun h => hn (by rw [h])
  obtain ⟨k, rfl⟩ : ∃ k, fuel = k + 4 := ⟨fuel - 4, by omega⟩
  constructor
  · refine ⟨_, mutual_run_from_root A B pAB pBA maxDepth k hn hd hpa hpb,
      by simp [scenEdge], rfl, ?_⟩
    simp only [List.nodup_cons, List.mem_singleton, List.not_mem_nil,
      not_false_iff, List.nodup_nil, and_true]
    exact fun h => hAB h.symm
  · rw [mutualPf_comm A B pAB pBA hAB]
    refine ⟨_, mutual_run_from_root B A pBA pAB maxDepth k (Ne.symm hn) hd hpb hpa,
      by simp [scenEdge], rfl, ?_⟩
    simp only [List.nodup_cons, List.mem_singleton, List.not_mem_nil,
      not_false_iff, List.nodup_nil, and_true]
    exact hAB

/-- Witness for C2 at concrete data: mutual ownership between Investor AB and
Ericsson AB ingests to exactly two edges from either root. -/
theorem C2_mutual_ownership_ingestion_witness :
    (∃ st : RunSt,
        ingest_company_with_portfolio
            (mutualPf "556013-8298" "556016-0680" (some 22) (some 10)) 2 9
            (idRef "556013-8298" none) emptyStore = some st ∧
          st.store.edges.map (fun e => (e.source, e.target)) =
            [("556013-8298", "556016-0680"), ("556016-0680", "556013-8298")] ∧
          st.visited = ["556016-0680", "556013-8298"] ∧ st.visited.Nodup) ∧
      (∃ st : RunSt,
        ingest_company_with_portfolio
            (mutualPf "556013-8298" "556016-0680" (some 22) (some 10)) 2 9
            (idRef "556016-0680" none) emptyStore = some st ∧
          st.store.edges.map (fun e => (e.source, e.target)) =
            [("556016-0680", "556013-8298"), ("556013-8298", "556016-0680")] ∧
          st.visited = ["556013-8298", "556016-0680"] ∧ st.visited.Nodup) :=
  C2_mutual_ownership_ingestion "556013-8298" "556016-0680" (some 22) (some 10) 2 9
    (by decide) (by decide) (by decide) (by decide) (by decide)

end NorthernLights
